import Mathlib

/-!
Shallow embedding of the qutrit operation submodule
(`pennylane/ops/qutrit/non_parametric_ops.py` and
`pennylane/ops/qutrit/state_preparation.py`).

Numeric model: the Python code computes with floating-point complex
matrices whose entries are exact algebraic numbers (0, ±1, ±i, ω = e^{2πi/3},
ζ = e^{2πi/9}, 1/√2, e^{iπ/4}).  We embed those values exactly:
* real-valued matrices (TShift, TSWAP, TX, TZ, TCNOT) over ℤ (their entries
  are 0 and ±1);
* TClock and the eigenvalue list of TShift over ℤ[ω] (`Qomega`);
* TY over the Gaussian integers ℤ[i] (`Qi`);
* TH over ℚ(√2) (`Qrt2`);
* TS and TT over ℚ(ζ₇₂) (`Cyc`), the 72nd cyclotomic field, which contains
  ζ = ζ₇₂⁸, ω = ζ₇₂²⁴, i = ζ₇₂¹⁸ and e^{iπ/4} = ζ₇₂⁹.
Python exceptions are embedded as `Except PyError`.
-/

/-- Decidable equality of `Except` values (not provided by the library). -/
instance {ε α : Type} [DecidableEq ε] [DecidableEq α] : DecidableEq (Except ε α) := fun x y =>
  match x, y with
  | Except.error e, Except.error f =>
    if h : e = f then Decidable.isTrue (congrArg _ h)
    else Decidable.isFalse fun c => h (Except.error.inj c)
  | Except.ok a, Except.ok b =>
    if h : a = b then Decidable.isTrue (congrArg _ h)
    else Decidable.isFalse fun c => h (Except.ok.inj c)
  | Except.error _, Except.ok _ => Decidable.isFalse fun c => Except.noConfusion c
  | Except.ok _, Except.error _ => Decidable.isFalse fun c => Except.noConfusion c

/-- Python exception classes raised by the modelled code paths.
`valueError` carries the message string from the `raise` statement. -/
inductive PyError where
  | valueError (msg : String)
  | typeError
  | indexError
  | wireError (msg : String)
deriving DecidableEq, Repr

/-- A Python value passed as the `subspace` argument: either a bare integer
(not iterable, not subscriptable) or a list of integers. -/
inductive PyObj where
  | int (n : ℤ)
  | list (xs : List ℤ)
deriving DecidableEq, Repr

/-- Message of the subspace length / iterability `ValueError`. -/
def msgSubspaceSeq : String :=
  "The subspace must be a sequence with two unique elements from the set \x7b0, 1, 2\x7d."

/-- Message of the subspace membership `ValueError`. -/
def msgSubspaceElems : String :=
  "Elements of the subspace must be 0, 1, or 2."

/-- Message of the subspace distinctness `ValueError`. -/
def msgSubspaceUnique : String :=
  "Elements of subspace list must be unique."

/-- The ring ℤ[ω], ω = e^{2πi/3}: elements `a + b·ω` with ω² = −1 − ω
(the matrices embedded here have entries 0, ±1, ω and ω² only). -/
structure Qomega where
  re : ℤ
  im : ℤ
deriving DecidableEq, Repr

instance : Zero Qomega := ⟨⟨0, 0⟩⟩
instance : One Qomega := ⟨⟨1, 0⟩⟩
instance : Add Qomega := ⟨fun x y => ⟨x.re + y.re, x.im + y.im⟩⟩
instance : Neg Qomega := ⟨fun x => ⟨-x.re, -x.im⟩⟩
instance : Mul Qomega := ⟨fun x y =>
  ⟨x.re * y.re - x.im * y.im, x.re * y.im + x.im * y.re - x.im * y.im⟩⟩

/-- ω = e^{2πi/3} as an element of ℚ(ω); the code's module constant
`OMEGA = np.exp(2 * np.pi * 1j / 3)`. -/
def omegaQ : Qomega := ⟨0, 1⟩

/-- The Gaussian integers ℤ[i]: elements `a + b·i` with i² = −1. -/
structure Qi where
  re : ℤ
  im : ℤ
deriving DecidableEq, Repr

instance : Zero Qi := ⟨⟨0, 0⟩⟩
instance : One Qi := ⟨⟨1, 0⟩⟩
instance : Add Qi := ⟨fun x y => ⟨x.re + y.re, x.im + y.im⟩⟩
instance : Neg Qi := ⟨fun x => ⟨-x.re, -x.im⟩⟩
instance : Mul Qi := ⟨fun x y =>
  ⟨x.re * y.re - x.im * y.im, x.re * y.im + x.im * y.re⟩⟩

/-- The imaginary unit of ℚ(i); the code's literal `1j`. -/
def iQ : Qi := ⟨0, 1⟩

/-- The field ℚ(√2): elements `a + b·√2` with (√2)² = 2. -/
structure Qrt2 where
  ra : ℚ
  rb : ℚ
deriving DecidableEq, Repr

instance : Zero Qrt2 := ⟨⟨0, 0⟩⟩
instance : One Qrt2 := ⟨⟨1, 0⟩⟩
instance : Add Qrt2 := ⟨fun x y => ⟨x.ra + y.ra, x.rb + y.rb⟩⟩
instance : Neg Qrt2 := ⟨fun x => ⟨-x.ra, -x.rb⟩⟩
instance : Mul Qrt2 := ⟨fun x y =>
  ⟨x.ra * y.ra + 2 * x.rb * y.rb, x.ra * y.rb + x.rb * y.ra⟩⟩

/-- √2 as an element of ℚ(√2); the code's `np.sqrt(2)`. -/
def rt2 : Qrt2 := ⟨0, 1⟩

/-- 1/√2 = √2/2 as an element of ℚ(√2); models the code's division
`mat / np.sqrt(2)`. -/
def invRt2 : Qrt2 := ⟨0, 1/2⟩

/-- The 72nd cyclotomic field ℚ(ζ₇₂) as ℚ[X]/(X²⁴ − X¹² + 1)
(Φ₇₂(X) = X²⁴ − X¹² + 1); an element is its coefficient vector. -/
abbrev Cyc := Fin 24 → ℚ

/-- The monomial X^k (k < 24) as an element of `Cyc`. -/
def cycE (k : ℕ) : Cyc := fun i => if (i : ℕ) = k then 1 else 0

/-- X^n reduced modulo Φ₇₂, using X²⁴ = X¹² − 1 (hence X³⁶ = −1, X⁷² = 1). -/
def cycXpow (n : ℕ) : Cyc :=
  let m := n % 72
  if m < 24 then cycE m
  else if m < 36 then cycE (m - 12) - cycE (m - 24)
  else if m < 60 then -(cycE (m - 36))
  else -(cycE (m - 48)) + cycE (m - 60)

/-- Multiplication in ℚ(ζ₇₂). -/
def cycMul (p q : Cyc) : Cyc :=
  ∑ a : Fin 24, ∑ b : Fin 24, (p a * q b) • cycXpow ((a : ℕ) + (b : ℕ))

/-- 1 in ℚ(ζ₇₂). -/
def cycOne : Cyc := cycE 0

/-- ζ = e^{2πi/9} = ζ₇₂⁸; the code's module constant `ZETA = OMEGA ** (1 / 3)`. -/
def zetaC : Cyc := cycXpow 8

/-- ζ⁸, the global phase of the no-subspace TS matrix. -/
def zeta8C : Cyc := cycXpow 64

/-- ω = e^{2πi/3} = ζ₇₂²⁴ inside ℚ(ζ₇₂). -/
def omegaC : Cyc := cycXpow 24

/-- i = ζ₇₂¹⁸ inside ℚ(ζ₇₂); the code's literal `1j`. -/
def iC : Cyc := cycXpow 18

/-- e^{iπ/4} = ζ₇₂⁹ inside ℚ(ζ₇₂); the code's `np.exp(1j * np.pi / 4)`. -/
def eipi4C : Cyc := cycXpow 9

/-- A 3×3 matrix with entries in `R`. -/
abbrev Mat3 (R : Type) := Fin 3 → Fin 3 → R

/-- A 9×9 matrix with integer entries. -/
abbrev Mat9 := Fin 9 → Fin 9 → ℤ

/-- Single-entry update `mat[r, c] = v`, modelling a numpy item assignment. -/
def upd3 {R : Type} (M : Mat3 R) (r c : Fin 3) (v : R) : Mat3 R :=
  fun i j => if i = r ∧ j = c then v else M i j

/-- The all-zero 3×3 matrix, `np.zeros((3, 3))`. -/
def zeros3 {R : Type} [Zero R] : Mat3 R := fun _ _ => 0

/-- The 3×3 identity, `np.eye(3)`. -/
def eye3 {R : Type} [Zero R] [One R] : Mat3 R := fun i j => if i = j then 1 else 0

/-- The 9×9 identity, `np.eye(9)`. -/
def eye9 : Mat9 := fun i j => if i = j then 1 else 0

/-- 3×3 matrix product. -/
def m3mul {R : Type} [Add R] [Mul R] (A B : Mat3 R) : Mat3 R :=
  fun i j => A i 0 * B 0 j + A i 1 * B 1 j + A i 2 * B 2 j

/-- 9×9 matrix product. -/
def m9mul (A B : Mat9) : Mat9 :=
  fun i j => ∑ k : Fin 9, A i k * B k j

/-- Scalar multiple of a 3×3 matrix. -/
def m3smul {R : Type} [Mul R] (c : R) (M : Mat3 R) : Mat3 R :=
  fun i j => c * M i j

/-- An integer in {0, 1, 2} as an index `Fin 3` (used after validation of
subspace members, where it is the identity embedding). -/
def idx3 (n : ℤ) : Fin 3 := ⟨n.toNat % 3, Nat.mod_lt _ (by decide)⟩

/-- Insert into a sorted list, ascending. -/
def insertAsc (x : ℤ) : List ℤ → List ℤ
  | [] => [x]
  | y :: ys => if x ≤ y then x :: y :: ys else y :: insertAsc x ys

/-- Python's `sorted` on a list of integers (ascending). -/
def pySorted (xs : List ℤ) : List ℤ := xs.foldr insertAsc []

/-- The member of {0, 1, 2} outside the subspace `\x7ba, b\x7d`;
models `list(\x7b0, 1, 2\x7d.difference(set(subspace))).pop()`. -/
def unusedOf (a b : ℤ) : ℤ :=
  ((([0, 1, 2] : List ℤ).filter fun x => x ≠ a ∧ x ≠ b)).headD 0

/-- The subspace validation block repeated verbatim in `TX.compute_matrix`,
`TY.compute_matrix`, `TZ.compute_matrix` and `TH.compute_matrix`:
length check, then membership check, then distinctness check, each raising
`ValueError` with its own message.  Returns `none` when the list passes. -/
def subspaceCheck (xs : List ℤ) : Option PyError :=
  if xs.length ≠ 2 then some (PyError.valueError msgSubspaceSeq)
  else if ¬ (xs.all fun s => s = 0 ∨ s = 1 ∨ s = 2) then
    some (PyError.valueError msgSubspaceElems)
  else if xs.getD 0 0 = xs.getD 1 0 then some (PyError.valueError msgSubspaceUnique)
  else none

/-- `TShift.compute_matrix()`: `np.array([[0, 0, 1], [1, 0, 0], [0, 1, 0]])`. -/
def tshiftM : Mat3 ℤ := ![![0, 0, 1], ![1, 0, 0], ![0, 1, 0]]

/-- `TShift.compute_eigvals()`: `np.array([OMEGA, OMEGA**2, 1])`. -/
def tshiftEigvals : List Qomega := [omegaQ, omegaQ * omegaQ, 1]

/-- `TClock.compute_matrix()`: `np.diag([1, OMEGA, OMEGA**2])`. -/
def tclockM : Mat3 Qomega :=
  ![![1, 0, 0], ![0, omegaQ, 0], ![0, 0, omegaQ * omegaQ]]

/-- `TClock.compute_eigvals()`: `np.array([1, OMEGA, OMEGA**2])`. -/
def tclockEigvals : List Qomega := [1, omegaQ, omegaQ * omegaQ]

/-- `TSWAP.compute_matrix()`: the 9×9 two-qutrit swap permutation matrix. -/
def tswapM : Mat9 :=
  ![![1, 0, 0, 0, 0, 0, 0, 0, 0],
    ![0, 0, 0, 1, 0, 0, 0, 0, 0],
    ![0, 0, 0, 0, 0, 0, 1, 0, 0],
    ![0, 1, 0, 0, 0, 0, 0, 0, 0],
    ![0, 0, 0, 0, 1, 0, 0, 0, 0],
    ![0, 0, 0, 0, 0, 0, 0, 1, 0],
    ![0, 0, 1, 0, 0, 0, 0, 0, 0],
    ![0, 0, 0, 0, 0, 1, 0, 0, 0],
    ![0, 0, 0, 0, 0, 0, 0, 0, 1]]

/-- Matrix body of `TX.compute_matrix` after validation: sort the subspace,
start from `np.zeros((3, 3))`, set `mat[a, b] = 1`, `mat[b, a] = 1`,
`mat[u, u] = 1` for the unused index `u`. -/
def txMatOf (xs : List ℤ) : Mat3 ℤ :=
  let s := pySorted xs
  let a := s.getD 0 0
  let b := s.getD 1 0
  let u := unusedOf a b
  upd3 (upd3 (upd3 zeros3 (idx3 a) (idx3 b) 1) (idx3 b) (idx3 a) 1) (idx3 u) (idx3 u) 1

/-- `TX.compute_matrix(subspace)`.  A bare integer fails with `TypeError`
at `len(subspace)`; a list goes through the validation block and then the
matrix construction. -/
def TX_cm : PyObj → Except PyError (Mat3 ℤ)
  | PyObj.int _ => Except.error PyError.typeError
  | PyObj.list xs =>
    match subspaceCheck xs with
    | some e => Except.error e
    | none => Except.ok (txMatOf xs)

/-- Matrix body of `TY.compute_matrix` after validation: sorted subspace,
complex zeros, `mat[a, b] = -1j`, `mat[b, a] = 1j`, `mat[u, u] = 1`. -/
def tyMatOf (xs : List ℤ) : Mat3 Qi :=
  let s := pySorted xs
  let a := s.getD 0 0
  let b := s.getD 1 0
  let u := unusedOf a b
  upd3 (upd3 (upd3 zeros3 (idx3 a) (idx3 b) (-iQ)) (idx3 b) (idx3 a) iQ) (idx3 u) (idx3 u) 1

/-- `TY.compute_matrix(subspace)`. -/
def TY_cm : PyObj → Except PyError (Mat3 Qi)
  | PyObj.int _ => Except.error PyError.typeError
  | PyObj.list xs =>
    match subspaceCheck xs with
    | some e => Except.error e
    | none => Except.ok (tyMatOf xs)

/-- Matrix body of `TZ.compute_matrix` after validation: the subspace is
*not* sorted (`subspace = tuple(subspace)`); `mat = np.eye(3)` and
`mat[subspace[1], subspace[1]] = -1`. -/
def tzMatOf (xs : List ℤ) : Mat3 ℤ :=
  let b := xs.getD 1 0
  upd3 eye3 (idx3 b) (idx3 b) (-1)

/-- `TZ.compute_matrix(subspace)`. -/
def TZ_cm : PyObj → Except PyError (Mat3 ℤ)
  | PyObj.int _ => Except.error PyError.typeError
  | PyObj.list xs =>
    match subspaceCheck xs with
    | some e => Except.error e
    | none => Except.ok (tzMatOf xs)

/-- Matrix body of `TH.compute_matrix` after validation: sorted subspace,
`mat = np.eye(3)`, `mat[u, u] = sqrt(2)`, `mat[a, b] = 1`, `mat[b, a] = 1`,
`mat[b, b] = -1`, returned as `mat / np.sqrt(2)`. -/
def thMatOf (xs : List ℤ) : Mat3 Qrt2 :=
  let s := pySorted xs
  let a := s.getD 0 0
  let b := s.getD 1 0
  let u := unusedOf a b
  m3smul invRt2
    (upd3 (upd3 (upd3 (upd3 eye3 (idx3 u) (idx3 u) rt2) (idx3 a) (idx3 b) 1)
      (idx3 b) (idx3 a) 1) (idx3 b) (idx3 b) (-1))

/-- `TH.compute_matrix(subspace)`. -/
def TH_cm : PyObj → Except PyError (Mat3 Qrt2)
  | PyObj.int _ => Except.error PyError.typeError
  | PyObj.list xs =>
    match subspaceCheck xs with
    | some e => Except.error e
    | none => Except.ok (thMatOf xs)

/-- Place a 3×3 block at control block `blk` of the 9×9 identity; models
`mat = np.eye(9); mat[3k:3k+3, 3k:3k+3] = op_mat`. -/
def placeBlock (op : Mat3 ℤ) (blk : ℕ) : Mat9 := fun i j =>
  if (i : ℕ) / 3 = blk ∧ (j : ℕ) / 3 = blk then
    op ⟨(i : ℕ) % 3, Nat.mod_lt _ (by decide)⟩ ⟨(j : ℕ) % 3, Nat.mod_lt _ (by decide)⟩
  else eye9 i j

/-- `TCNOT.compute_matrix(subspace, control_value)`: delegates the subspace
handling to `TX.compute_matrix` (the code performs no checks of its own),
then writes the TX block at the block selected by `control_value`:
block 0 if it equals 0, block 1 if it equals 1, and block 2 otherwise. -/
def TCNOT_cm (sub : PyObj) (cv : ℤ) : Except PyError Mat9 :=
  (TX_cm sub).map fun op =>
    if cv = 0 then placeBlock op 0
    else if cv = 1 then placeBlock op 1
    else placeBlock op 2

/-- A numpy index into an axis of size 3: integers in [-3, 3) are accepted
(negative indices count from the end); anything else raises `IndexError`. -/
def npIdx3 (n : ℤ) : Option (Fin 3) :=
  if -3 ≤ n ∧ n < 3 then some ⟨(n % 3).toNat, by omega⟩ else none

/-- The 3×3 identity over ℚ(ζ₇₂) (`cycOne` on the diagonal). -/
def eye3C : Mat3 Cyc := fun i j => if i = j then cycOne else 0

/-- Diagonal 3×3 matrix over ℚ(ζ₇₂), `np.diag([d0, d1, d2])`. -/
def diag3C (d0 d1 d2 : Cyc) : Mat3 Cyc := fun i j =>
  if i = j then (if (i : ℕ) = 0 then d0 else if (i : ℕ) = 1 then d1 else d2) else 0

/-- Scalar multiple of a 3×3 matrix over ℚ(ζ₇₂). -/
def m3smulC (c : Cyc) (M : Mat3 Cyc) : Mat3 Cyc := fun i j => cycMul c (M i j)

/-- The no-subspace TS matrix `ZETA**8 * np.diag([1, 1, OMEGA])`. -/
def tsNoneM : Mat3 Cyc := m3smulC zeta8C (diag3C cycOne cycOne omegaC)

/-- The no-subspace TT matrix `np.diag([1, ZETA, ZETA**8])`. -/
def ttNoneM : Mat3 Cyc := diag3C cycOne zetaC zeta8C

/-- `TS.compute_matrix(subspace=None)`.  The subspace branch performs *no*
validation: it runs `mat = np.eye(3)`, `mat[subspace[0], subspace[0]] = 1`,
`mat[subspace[1], subspace[1]] = 1j`.  A bare integer fails with `TypeError`
at the first subscript; list indices out of range fail with `IndexError`
(from the Python list lookup or the numpy axis bound). -/
def TS_cm : Option PyObj → Except PyError (Mat3 Cyc)
  | none => Except.ok tsNoneM
  | some (PyObj.int _) => Except.error PyError.typeError
  | some (PyObj.list xs) =>
    match xs[0]? with
    | none => Except.error PyError.indexError
    | some x0 =>
      match npIdx3 x0 with
      | none => Except.error PyError.indexError
      | some i0 =>
        match xs[1]? with
        | none => Except.error PyError.indexError
        | some x1 =>
          match npIdx3 x1 with
          | none => Except.error PyError.indexError
          | some i1 => Except.ok (upd3 (upd3 eye3C i0 i0 cycOne) i1 i1 iC)

/-- `TT.compute_matrix(subspace=None)`: same structure as `TS.compute_matrix`
with the phase `np.exp(1j * np.pi / 4)` on the second subspace entry. -/
def TT_cm : Option PyObj → Except PyError (Mat3 Cyc)
  | none => Except.ok ttNoneM
  | some (PyObj.int _) => Except.error PyError.typeError
  | some (PyObj.list xs) =>
    match xs[0]? with
    | none => Except.error PyError.indexError
    | some x0 =>
      match npIdx3 x0 with
      | none => Except.error PyError.indexError
      | some i0 =>
        match xs[1]? with
        | none => Except.error PyError.indexError
        | some x1 =>
          match npIdx3 x1 with
          | none => Except.error PyError.indexError
          | some i1 => Except.ok (upd3 (upd3 eye3C i0 i0 cycOne) i1 i1 eipi4C)

/-- `TS.__init__(wires, subspace=None)`: `hasattr(subspace, "__iter__")`
is false for `None` and for a bare integer, raising `ValueError`; a list is
stored as `self._subspace`.  The default argument is `None`. -/
def TS_init (subspace : Option PyObj := none) : Except PyError (List ℤ) :=
  match subspace with
  | some (PyObj.list xs) => Except.ok xs
  | _ => Except.error (PyError.valueError msgSubspaceSeq)

/-- `TT.__init__(wires, subspace=None)`: identical validation to `TS.__init__`. -/
def TT_init (subspace : Option PyObj := none) : Except PyError (List ℤ) :=
  match subspace with
  | some (PyObj.list xs) => Except.ok xs
  | _ => Except.error (PyError.valueError msgSubspaceSeq)

/-- The `TZ.subspace` property: `tuple(self._subspace)` — the stored order
is preserved. -/
def TZ_subspace (stored : List ℤ) : List ℤ := stored

/-- The `TS.subspace` property: `tuple(sorted(self._subspace))`. -/
def TS_subspace (stored : List ℤ) : List ℤ := pySorted stored

/-- The `TT.subspace` property: `tuple(sorted(self._subspace))`. -/
def TT_subspace (stored : List ℤ) : List ℤ := pySorted stored

/-- A Python number passed to `pow`: either an `int` (for which
`isinstance(z, int)` holds) or a non-`int` real, embedded as a rational. -/
inductive PyNum where
  | pint (n : ℤ)
  | pfloat (q : ℚ)
deriving DecidableEq, Repr

/-- Python's `%` on floats: `q % m = q - m * floor(q / m)`. -/
def floatMod (q m : ℚ) : ℚ := q - m * (⌊q / m⌋ : ℤ)

/-- `TShift.pow(z)`: `super().pow(z % 3)` with no `isinstance` test — the
modulo is applied to every exponent.  Returns the exponent handed to the
generic `Operation.pow`. -/
def tshift_pow : PyNum → PyNum
  | PyNum.pint n => PyNum.pint (n % 3)
  | PyNum.pfloat q => PyNum.pfloat (floatMod q 3)

/-- `TClock.pow(z)`: `super().pow(z % 3)`, no `isinstance` test. -/
def tclock_pow : PyNum → PyNum
  | PyNum.pint n => PyNum.pint (n % 3)
  | PyNum.pfloat q => PyNum.pfloat (floatMod q 3)

/-- `TAdd.pow(z)`: `super().pow(z % 3)`, no `isinstance` test. -/
def tadd_pow : PyNum → PyNum
  | PyNum.pint n => PyNum.pint (n % 3)
  | PyNum.pfloat q => PyNum.pfloat (floatMod q 3)

/-- `TSWAP.pow(z)`: `super().pow(z % 2)`, no `isinstance` test. -/
def tswap_pow : PyNum → PyNum
  | PyNum.pint n => PyNum.pint (n % 2)
  | PyNum.pfloat q => PyNum.pfloat (floatMod q 2)

/-- `TX.pow(z)`: non-`int` exponents are delegated unchanged
(`if not isinstance(z, int): return super().pow(z)`); integers are reduced
to `z % 2`. -/
def tx_pow : PyNum → PyNum
  | PyNum.pint n => PyNum.pint (n % 2)
  | PyNum.pfloat q => PyNum.pfloat q

/-- `TY.pow(z)`: same rule as `TX.pow`. -/
def ty_pow : PyNum → PyNum
  | PyNum.pint n => PyNum.pint (n % 2)
  | PyNum.pfloat q => PyNum.pfloat q

/-- `TZ.pow(z)`: same rule as `TX.pow`. -/
def tz_pow : PyNum → PyNum
  | PyNum.pint n => PyNum.pint (n % 2)
  | PyNum.pfloat q => PyNum.pfloat q

/-- `TH.pow(z)`: same rule as `TX.pow`. -/
def th_pow : PyNum → PyNum
  | PyNum.pint n => PyNum.pint (n % 2)
  | PyNum.pfloat q => PyNum.pfloat q

/-- `TCNOT.pow(z)`: same rule as `TX.pow`. -/
def tcnot_pow : PyNum → PyNum
  | PyNum.pint n => PyNum.pint (n % 2)
  | PyNum.pfloat q => PyNum.pfloat q

/-- A numpy ndarray of rationals: a shape and the flat row-major data
(amplitudes are modelled as exact rationals; the claims under study concern
placement and shape, not rounding). -/
structure ND where
  shape : List ℕ
  data : List ℚ
deriving DecidableEq, Repr

/-- Row-major flat position of the multi-index `idx` in shape `shape`. -/
def flattenIdx : List ℕ → List ℕ → ℕ
  | [], _ => 0
  | _ :: srest, idx => idx.headD 0 * srest.prod + flattenIdx srest idx.tail

/-- All multi-indices of a shape, in row-major order. -/
def allIdx : List ℕ → List (List ℕ)
  | [] => [[]]
  | n :: rest => (List.range n).flatMap fun i => (allIdx rest).map (i :: ·)

/-- `np.stack([A, B], axis=-1)`: a new trailing axis of size 2 whose slices
are `A` and `B`. -/
def ndStackLast (A B : ND) : ND :=
  ⟨A.shape ++ [2], (A.data.zip B.data).flatMap fun p => [p.1, p.2]⟩

/-- `np.zeros_like(A)`. -/
def ndZerosLike (A : ND) : ND := ⟨A.shape, A.data.map fun _ => 0⟩

/-- `np.transpose(A, axes)`: axis `k` of the result is axis `axes[k]` of `A`,
so the entry of the result at multi-index `idx` is the entry of `A` at the
multi-index `x` with `x[axes[k]] = idx[k]`. -/
def ndTranspose (A : ND) (axes : List ℕ) : ND :=
  let shape2 := axes.map fun k => A.shape.getD k 0
  ⟨shape2, (allIdx shape2).map fun idx =>
    A.data.getD
      (flattenIdx A.shape ((List.range A.shape.length).map fun d => idx.getD (axes.indexOf d) 0))
      0⟩

/-- Insert into a sorted list of naturals, ascending. -/
def insertAscN (x : ℕ) : List ℕ → List ℕ
  | [] => [x]
  | y :: ys => if x ≤ y then x :: y :: ys else y :: insertAscN x ys

/-- Ascending sort on naturals; models the iteration order of a CPython
`set` of small nonnegative integers (whose hashes are the values). -/
def natSorted (xs : List ℕ) : List ℕ := xs.foldr insertAscN []

/-- Message of the `WireError` in `QutritStateVector.state_vector`
(`self.name` interpolates to the class name). -/
def msgQSVWires : String := "Custom wire_order must contain all QutritStateVector wires"

/-- Message of the reshape failure (numpy `ValueError` when the data size
does not match `(3,) * num_op_wires`; dynamic message paraphrased). -/
def msgReshape : String := "cannot reshape array"

/-- `QutritStateVector.state_vector(wire_order)` for an unbatched operator
(`self.batch_size` falsy), with wires labelled by naturals and the stored
parameter a flat amplitude list.
* reshape the parameter to `(3,) * num_op_wires`;
* if `wire_order` is `None` or equals the operator wires, return it;
* otherwise require containment (`WireError`), then for each wire of the
  target order missing from the operator run
  `op_vector = math.stack([op_vector, math.zeros_like(op_vector)], axis=-1)`
  (the extra wires are iterated in the order of the Python set difference
  `set(wire_order) - set(self.wires)`, modelled as ascending), and finally
  transpose by the positions of the target wires in
  `self.wires + extra_wires`. -/
def qsv_state_vector (wires : List ℕ) (state : List ℚ) (wire_order : Option (List ℕ)) :
    Except PyError ND :=
  if state.length ≠ 3 ^ wires.length then Except.error (PyError.valueError msgReshape)
  else
    let opv : ND := ⟨List.replicate wires.length 3, state⟩
    match wire_order with
    | none => Except.ok opv
    | some order =>
      if order = wires then Except.ok opv
      else if ¬ (wires.all fun w => w ∈ order) then
        Except.error (PyError.wireError msgQSVWires)
      else
        let extra := natSorted ((order.filter fun w => w ∉ wires).dedup)
        let stacked := extra.foldl (fun acc _ => ndStackLast acc (ndZerosLike acc)) opv
        let current := wires ++ extra
        Except.ok (ndTranspose stacked (order.map fun w => current.indexOf w))

/-- Message of the trit-range `ValueError` in `QutritBasisState.state_vector`. -/
def msgBasisVals : String := "QutritBasisState parameter must consist of 0, 1 or 2 integers."

/-- Message of the length-mismatch `ValueError` in `QutritBasisState.state_vector`. -/
def msgBasisLen : String := "QutritBasisState parameter and wires must be of equal length."

/-- Message of the `WireError` in `QutritBasisState.state_vector`. -/
def msgBasisWires : String := "Custom wire_order must contain all QutritBasisState wires"

/-- `QutritBasisState.state_vector(wire_order)` with wires labelled by
naturals and the stored parameter a trit list:
* every trit must be 0, 1 or 2 (`ValueError`), and there must be as many
  trits as operator wires (`ValueError`);
* with no `wire_order` the index tuple is the trit list itself;
* with a `wire_order` it must contain the operator wires (`WireError`);
  the index tuple starts as all zeros and `indices[wire_order.index(w)] = v`
  is run for each operator wire `w` with trit `v`;
* the result is `np.zeros((3,) * num_wires)` with entry 1 at the index
  tuple (stored flat, row-major). -/
def qbs_state_vector (wires : List ℕ) (prep_vals : List ℤ) (wire_order : Option (List ℕ)) :
    Except PyError ND :=
  if ¬ (prep_vals.all fun i => i = 0 ∨ i = 1 ∨ i = 2) then
    Except.error (PyError.valueError msgBasisVals)
  else if wires.length ≠ prep_vals.length then
    Except.error (PyError.valueError msgBasisLen)
  else
    match wire_order with
    | none =>
      let m := wires.length
      let indices := prep_vals.map Int.toNat
      Except.ok ⟨List.replicate m 3,
        (List.replicate (3 ^ m) (0 : ℚ)).set (flattenIdx (List.replicate m 3) indices) 1⟩
    | some order =>
      if ¬ (wires.all fun w => w ∈ order) then
        Except.error (PyError.wireError msgBasisWires)
      else
        let m := order.length
        let indices := (wires.zip prep_vals).foldl
          (fun acc wv => acc.set (order.indexOf wv.1) wv.2.toNat) (List.replicate m 0)
        Except.ok ⟨List.replicate m 3,
          (List.replicate (3 ^ m) (0 : ℚ)).set (flattenIdx (List.replicate m 3) indices) 1⟩

/-- One-hot flat data of length `n` with the 1 at position `k`. -/
def oneHot (n k : ℕ) : List ℚ := (List.replicate n (0 : ℚ)).set k 1

/-- The index tuple described by the specification: one entry per wire of
the target order, the trit of that wire when it belongs to the operator and
0 otherwise. -/
def specIndices (wires : List ℕ) (prep_vals : List ℤ) (target : List ℕ) : List ℕ :=
  target.map fun w => if w ∈ wires then (prep_vals.getD (wires.indexOf w) 0).toNat else 0

/-- The statement that every validating gate family surfaces the error `e`
for the subspace list `xs`: TX, TY, TZ, TH and (for every control value)
TCNOT all return it from `compute_matrix`, constructing no matrix. -/
def allGatesError (xs : List ℤ) (e : PyError) : Prop :=
  TX_cm (PyObj.list xs) = Except.error e ∧
  TY_cm (PyObj.list xs) = Except.error e ∧
  TZ_cm (PyObj.list xs) = Except.error e ∧
  TH_cm (PyObj.list xs) = Except.error e ∧
  ∀ cv : ℤ, TCNOT_cm (PyObj.list xs) cv = Except.error e

/-- Multiplication of ℚ(√2) elements in coordinates. -/
theorem qrt2_mul_mk (a b c d : ℚ) :
    (⟨a, b⟩ : Qrt2) * ⟨c, d⟩ = ⟨a * c + 2 * b * d, a * d + b * c⟩ := rfl

/-- Addition of ℚ(√2) elements in coordinates. -/
theorem qrt2_add_mk (a b c d : ℚ) : (⟨a, b⟩ : Qrt2) + ⟨c, d⟩ = ⟨a + c, b + d⟩ := rfl

/-- Negation of ℚ(√2) elements in coordinates. -/
theorem qrt2_neg_mk (a b : ℚ) : -(⟨a, b⟩ : Qrt2) = ⟨-a, -b⟩ := rfl

/-- Zero of ℚ(√2) in coordinates. -/
theorem qrt2_zero_mk : (0 : Qrt2) = ⟨0, 0⟩ := rfl

/-- One of ℚ(√2) in coordinates. -/
theorem qrt2_one_mk : (1 : Qrt2) = ⟨1, 0⟩ := rfl

/-- A failed length check yields the sequence-message `ValueError`. -/
theorem subspaceCheck_len {xs : List ℤ} (h : xs.length ≠ 2) :
    subspaceCheck xs = some (PyError.valueError msgSubspaceSeq) := by
  simp [subspaceCheck, h]

/-- A length-2 list with an out-of-range element fails the membership check. -/
theorem subspaceCheck_mem {xs : List ℤ} (hlen : xs.length = 2) {x : ℤ} (hx : x ∈ xs)
    (h0 : x ≠ 0) (h1 : x ≠ 1) (h2 : x ≠ 2) :
    subspaceCheck xs = some (PyError.valueError msgSubspaceElems) := by
  have hall : ¬ ((xs.all fun s => s = 0 ∨ s = 1 ∨ s = 2) = true) := by
    simp only [List.all_eq_true]
    intro hforall
    have := hforall x hx
    simp [h0, h1, h2] at this
  unfold subspaceCheck
  rw [if_neg (fun hc => hc hlen), if_pos hall]

/-- A length-2 in-range list with equal entries fails the distinctness check. -/
theorem subspaceCheck_dup {xs : List ℤ} (hlen : xs.length = 2)
    (hall : ∀ x ∈ xs, x = 0 ∨ x = 1 ∨ x = 2) (hdup : xs.getD 0 0 = xs.getD 1 0) :
    subspaceCheck xs = some (PyError.valueError msgSubspaceUnique) := by
  have hb : (xs.all fun s => s = 0 ∨ s = 1 ∨ s = 2) = true := by
    simp only [List.all_eq_true]
    intro x hx
    simpa using hall x hx
  unfold subspaceCheck
  rw [if_neg (fun hc => hc hlen), if_neg (fun hc => hc hb), if_pos hdup]

/-- Every gate family whose `compute_matrix` runs the shared validation
block surfaces the validation error unchanged. -/
theorem gatesErr {xs : List ℤ} {e : PyError} (h : subspaceCheck xs = some e) :
    allGatesError xs e := by
  refine ⟨?_, ?_, ?_, ?_, fun cv => ?_⟩ <;>
    simp [allGatesError, TX_cm, TY_cm, TZ_cm, TH_cm, TCNOT_cm, Except.map, h]

/-- Claim C6: the TShift canonical matrix is the cyclic permutation sending
basis index i to (i+1) mod 3, its cube is the identity, and the multiset of
values returned by `TShift.compute_eigvals` is exactly \x7b1, ω, ω²\x7d with
ω = e^{2πi/3}. -/
theorem C6_tshift_matrix_eigvals :
    (∀ i j : Fin 3, tshiftM i j = if (i : ℕ) = ((j : ℕ) + 1) % 3 then 1 else 0) ∧
    m3mul tshiftM (m3mul tshiftM tshiftM) = eye3 ∧
    (↑tshiftEigvals : Multiset Qomega) = {1, omegaQ, omegaQ * omegaQ} := by
  refine ⟨by decide, by decide, by decide⟩

/-- Claim C8: constructing a TS or TT operator without a subspace argument
(default `None`) raises `ValueError` at the iterability check, so the
no-subspace diagonal-matrix branch is reachable only through the static
`compute_matrix` call, which returns it without error. -/
theorem C8_ts_tt_init_requires_subspace :
    TS_init none = Except.error (PyError.valueError msgSubspaceSeq) ∧
    TT_init none = Except.error (PyError.valueError msgSubspaceSeq) ∧
    TS_cm none = Except.ok tsNoneM ∧
    TT_cm none = Except.ok ttNoneM :=
  ⟨rfl, rfl, rfl, rfl⟩

/-- Claim C3 counterexample: `TShift.pow` does not pass the non-integer
exponent 3.5 through unchanged — it reduces it modulo 3 to 0.5. -/
theorem C3_tshift_float_mod_cex :
    tshift_pow (PyNum.pfloat (7 / 2)) ≠ PyNum.pfloat (7 / 2) := by
  simp only [tshift_pow, floatMod, ne_eq, PyNum.pfloat.injEq]
  norm_num

/-- Claim C3 amended: only TCNOT, TX, TY, TZ and TH test `isinstance(z, int)`
and delegate non-integer exponents unchanged; TShift, TClock, TAdd and TSWAP
apply the Python float modulo by their period to every exponent. -/
theorem C3_pow_nonint_amended (q : ℚ) :
    tcnot_pow (PyNum.pfloat q) = PyNum.pfloat q ∧
    tx_pow (PyNum.pfloat q) = PyNum.pfloat q ∧
    ty_pow (PyNum.pfloat q) = PyNum.pfloat q ∧
    tz_pow (PyNum.pfloat q) = PyNum.pfloat q ∧
    th_pow (PyNum.pfloat q) = PyNum.pfloat q ∧
    tshift_pow (PyNum.pfloat q) = PyNum.pfloat (q - 3 * (⌊q / 3⌋ : ℤ)) ∧
    tclock_pow (PyNum.pfloat q) = PyNum.pfloat (q - 3 * (⌊q / 3⌋ : ℤ)) ∧
    tadd_pow (PyNum.pfloat q) = PyNum.pfloat (q - 3 * (⌊q / 3⌋ : ℤ)) ∧
    tswap_pow (PyNum.pfloat q) = PyNum.pfloat (q - 2 * (⌊q / 2⌋ : ℤ)) :=
  ⟨rfl, rfl, rfl, rfl, rfl, rfl, rfl, rfl, rfl⟩

/-- Claim C4 counterexample: the `TS.subspace` property does not preserve
the supplied order — for the stored subspace `[1, 0]` it returns the sorted
tuple `(0, 1)`. -/
theorem C4_ts_sorted_cex : TS_subspace [1, 0] ≠ [1, 0] := by decide

/-- Claim C4 amended: only TZ's `subspace` property preserves the original
element order; the phase gates TS and TT sort it ascending. -/
theorem C4_subspace_order_amended (a b : ℤ)
    (ha : a = 0 ∨ a = 1 ∨ a = 2) (hb : b = 0 ∨ b = 1 ∨ b = 2) (hab : a ≠ b) :
    TZ_subspace [a, b] = [a, b] ∧
    TS_subspace [a, b] = [min a b, max a b] ∧
    TT_subspace [a, b] = [min a b, max a b] := by
  rcases ha with rfl | rfl | rfl <;> rcases hb with rfl | rfl | rfl <;>
    first
      | exact absurd rfl hab
      | exact ⟨rfl, by decide, by decide⟩

/-- Witness for C4: the subspace `[2, 1]` is kept as `(2, 1)` by TZ but
sorted to `(1, 2)` by TS and TT. -/
theorem C4_subspace_order_witness :
    TZ_subspace [2, 1] = [2, 1] ∧
    TS_subspace [2, 1] = [min 2 1, max 2 1] ∧
    TT_subspace [2, 1] = [min 2 1, max 2 1] :=
  C4_subspace_order_amended 2 1 (by decide) (by decide) (by decide)

/-- Claim C10: for every valid subspace (a, b), `TZ.compute_matrix` equals
the 3×3 identity with entry (b, b) replaced by −1, so it depends only on the
second element; in particular `[0, 1]` and `[2, 1]` give the same matrix. -/
theorem C10_tz_second_element (a b : ℤ)
    (ha : a = 0 ∨ a = 1 ∨ a = 2) (hb : b = 0 ∨ b = 1 ∨ b = 2) (hab : a ≠ b) :
    TZ_cm (PyObj.list [a, b]) =
      Except.ok ((fun i j => if i = j then (if ((i : ℕ) : ℤ) = b then -1 else 1) else 0) :
        Mat3 ℤ) ∧
    TZ_cm (PyObj.list [0, 1]) = TZ_cm (PyObj.list [2, 1]) := by
  rcases ha with rfl | rfl | rfl <;> rcases hb with rfl | rfl | rfl <;>
    first
      | exact absurd rfl hab
      | exact ⟨by decide, by decide⟩

/-- Witness for C10: instantiation at the subspace `[0, 1]`. -/
theorem C10_tz_second_element_witness :
    TZ_cm (PyObj.list [0, 1]) =
      Except.ok ((fun i j => if i = j then (if ((i : ℕ) : ℤ) = 1 then -1 else 1) else 0) :
        Mat3 ℤ) :=
  (C10_tz_second_element 0 1 (by decide) (by decide) (by decide)).1

/-- Claim C9: `TCNOT.compute_matrix` never validates `control_value`; every
value other than 0 and 1 lands in the `else` branch, giving the matrix with
the subspace-X block at the |2⟩ control block — identical to the result for
`control_value = 2` — and never raising on account of `control_value`. -/
theorem C9_tcnot_control_value (sub : PyObj) (cv : ℤ) (h0 : cv ≠ 0) (h1 : cv ≠ 1) :
    TCNOT_cm sub cv = TCNOT_cm sub 2 ∧
    ∀ m : Mat3 ℤ, TX_cm sub = Except.ok m →
      TCNOT_cm sub cv = Except.ok ((fun i j =>
        if h : 6 ≤ (i : ℕ) ∧ 6 ≤ (j : ℕ) then
          m ⟨(i : ℕ) - 6, by have := i.isLt; omega⟩ ⟨(j : ℕ) - 6, by have := j.isLt; omega⟩
        else if i = j then 1 else 0) : Mat9) := by
  constructor
  · unfold TCNOT_cm
    congr 1
    funext op
    rw [if_neg h0, if_neg h1]
    norm_num
  · intro m hm
    unfold TCNOT_cm
    rw [hm]
    simp only [Except.map, if_neg h0, if_neg h1]
    refine congrArg Except.ok (funext fun i => funext fun j => ?_)
    fin_cases i <;> fin_cases j <;> simp [placeBlock, eye9]

/-- Witness for C9: `control_value = 3` with subspace `[0, 1]` gives the
same matrix as `control_value = 2`. -/
theorem C9_tcnot_control_value_witness :
    TCNOT_cm (PyObj.list [0, 1]) 3 = TCNOT_cm (PyObj.list [0, 1]) 2 :=
  (C9_tcnot_control_value (PyObj.list [0, 1]) 3 (by decide) (by decide)).1

/-- Claim C2 counterexample: `TS.compute_matrix` performs no subspace
validation — the duplicate subspace `[0, 0]` is accepted and a matrix is
returned instead of an error. -/
theorem C2_ts_no_validation_cex :
    TS_cm (some (PyObj.list [0, 0])) = Except.ok (upd3 (upd3 eye3C 0 0 cycOne) 0 0 iC) := rfl

/-- Claim C2 amended: TX, TY, TZ, TH and TCNOT (which delegates to TX)
validate the subspace in `compute_matrix` in the order length → membership →
distinctness, raising `ValueError` before any matrix is constructed, and a
bare integer fails with a `TypeError` (at `len()`, or at subscripting for
TS/TT) rather than a `ValueError`; TS and TT perform no validation at all:
`[0, 0]` yields a matrix and `[0, 3]` fails only with an `IndexError` at
the numpy assignment. -/
theorem C2_validation_amended (xs : List ℤ) :
    (∀ n : ℤ,
      TX_cm (PyObj.int n) = Except.error PyError.typeError ∧
      TY_cm (PyObj.int n) = Except.error PyError.typeError ∧
      TZ_cm (PyObj.int n) = Except.error PyError.typeError ∧
      TH_cm (PyObj.int n) = Except.error PyError.typeError ∧
      (∀ cv : ℤ, TCNOT_cm (PyObj.int n) cv = Except.error PyError.typeError) ∧
      TS_cm (some (PyObj.int n)) = Except.error PyError.typeError ∧
      TT_cm (some (PyObj.int n)) = Except.error PyError.typeError) ∧
    (xs.length ≠ 2 → allGatesError xs (PyError.valueError msgSubspaceSeq)) ∧
    (xs.length = 2 → ∀ x : ℤ, x ∈ xs → x ≠ 0 → x ≠ 1 → x ≠ 2 →
      allGatesError xs (PyError.valueError msgSubspaceElems)) ∧
    (xs.length = 2 → (∀ x ∈ xs, x = 0 ∨ x = 1 ∨ x = 2) → xs.getD 0 0 = xs.getD 1 0 →
      allGatesError xs (PyError.valueError msgSubspaceUnique)) ∧
    (TS_cm (some (PyObj.list [0, 0])) = Except.ok (upd3 (upd3 eye3C 0 0 cycOne) 0 0 iC) ∧
     TT_cm (some (PyObj.list [0, 0])) = Except.ok (upd3 (upd3 eye3C 0 0 cycOne) 0 0 eipi4C) ∧
     TS_cm (some (PyObj.list [0, 3])) = Except.error PyError.indexError ∧
     TT_cm (some (PyObj.list [0, 3])) = Except.error PyError.indexError) := by
  refine ⟨fun n => ⟨rfl, rfl, rfl, rfl, fun cv => rfl, rfl, rfl⟩, ?_, ?_, ?_,
    ⟨rfl, rfl, rfl, rfl⟩⟩
  · intro h
    exact gatesErr (subspaceCheck_len h)
  · intro hlen x hx h0 h1 h2
    exact gatesErr (subspaceCheck_mem hlen hx h0 h1 h2)
  · intro hlen hall hdup
    exact gatesErr (subspaceCheck_dup hlen hall hdup)

/-- Witness for C2: the out-of-range subspace `[0, 3]` is rejected with the
membership `ValueError` by every validating gate family. -/
theorem C2_validation_witness :
    allGatesError [0, 3] (PyError.valueError msgSubspaceElems) :=
  (C2_validation_amended [0, 3]).2.2.1 rfl 3 (by decide) (by decide) (by decide) (by decide)

set_option maxHeartbeats 2000000 in
/-- Claim C5: TShift and TClock have period 3 (canonical matrix cubed is the
identity) and TSWAP, TX, TY, TZ, TH and TCNOT have period 2 (canonical
matrix squared is the identity, for every valid subspace and control value),
and each gate's `pow` reduces every integer exponent modulo its period
before delegating to the generic exponentiation entry point. -/
theorem C5_periods (a b : ℤ)
    (ha : a = 0 ∨ a = 1 ∨ a = 2) (hb : b = 0 ∨ b = 1 ∨ b = 2) (hab : a ≠ b) :
    m3mul tshiftM (m3mul tshiftM tshiftM) = eye3 ∧
    (∀ n : ℤ, tshift_pow (PyNum.pint n) = PyNum.pint (n % 3)) ∧
    m3mul tclockM (m3mul tclockM tclockM) = eye3 ∧
    (∀ n : ℤ, tclock_pow (PyNum.pint n) = PyNum.pint (n % 3)) ∧
    m9mul tswapM tswapM = eye9 ∧
    (∀ n : ℤ, tswap_pow (PyNum.pint n) = PyNum.pint (n % 2)) ∧
    (∀ m, TX_cm (PyObj.list [a, b]) = Except.ok m → m3mul m m = eye3) ∧
    (∀ n : ℤ, tx_pow (PyNum.pint n) = PyNum.pint (n % 2)) ∧
    (∀ m, TY_cm (PyObj.list [a, b]) = Except.ok m → m3mul m m = eye3) ∧
    (∀ n : ℤ, ty_pow (PyNum.pint n) = PyNum.pint (n % 2)) ∧
    (∀ m, TZ_cm (PyObj.list [a, b]) = Except.ok m → m3mul m m = eye3) ∧
    (∀ n : ℤ, tz_pow (PyNum.pint n) = PyNum.pint (n % 2)) ∧
    (∀ m, TH_cm (PyObj.list [a, b]) = Except.ok m → m3mul m m = eye3) ∧
    (∀ n : ℤ, th_pow (PyNum.pint n) = PyNum.pint (n % 2)) ∧
    (∀ (cv : ℤ) m9, TCNOT_cm (PyObj.list [a, b]) cv = Except.ok m9 → m9mul m9 m9 = eye9) ∧
    (∀ n : ℤ, tcnot_pow (PyNum.pint n) = PyNum.pint (n % 2)) := by
  refine ⟨by decide, fun n => rfl, by decide, fun n => rfl, by decide, fun n => rfl,
    ?_, fun n => rfl, ?_, fun n => rfl, ?_, fun n => rfl, ?_, fun n => rfl, ?_, fun n => rfl⟩
  · rcases ha with rfl | rfl | rfl <;> rcases hb with rfl | rfl | rfl <;>
      first
        | exact absurd rfl hab
        | (intro m hm; obtain rfl := Except.ok.inj hm; decide)
  · rcases ha with rfl | rfl | rfl <;> rcases hb with rfl | rfl | rfl <;>
      first
        | exact absurd rfl hab
        | (intro m hm; obtain rfl := Except.ok.inj hm; decide)
  · rcases ha with rfl | rfl | rfl <;> rcases hb with rfl | rfl | rfl <;>
      first
        | exact absurd rfl hab
        | (intro m hm; obtain rfl := Except.ok.inj hm; decide)
  · rcases ha with rfl | rfl | rfl <;> rcases hb with rfl | rfl | rfl <;>
      first
        | exact absurd rfl hab
        | (intro m hm; obtain rfl := Except.ok.inj hm; funext i j;
           fin_cases i <;> fin_cases j <;>
             simp +decide only [thMatOf, m3mul, m3smul, upd3, eye3, pySorted, insertAsc,
               unusedOf, idx3, invRt2, rt2, qrt2_one_mk, qrt2_zero_mk, qrt2_neg_mk] <;>
             norm_num [qrt2_mul_mk, qrt2_add_mk, Qrt2.mk.injEq])
  · rcases ha with rfl | rfl | rfl <;> rcases hb with rfl | rfl | rfl <;>
      first
        | exact absurd rfl hab
        | (intro cv m9 hm
           obtain rfl := Except.ok.inj hm
           by_cases hc0 : cv = 0
           · subst hc0; decide
           by_cases hc1 : cv = 1
           · subst hc1; decide
           simp only [if_neg hc0, if_neg hc1]
           decide)

/-- Witness for C5: the TSWAP matrix squared is the 9×9 identity. -/
theorem C5_periods_witness : m9mul tswapM tswapM = eye9 :=
  (C5_periods 0 1 (by decide) (by decide) (by decide)).2.2.2.2.1

/-- Looking each wire up at its own index returns the trit list itself. -/
theorem lookup_self : ∀ (ws : List ℕ) (vs : List ℤ), ws.Nodup → ws.length = vs.length →
    (ws.map fun w => vs.getD (ws.indexOf w) 0) = vs
  | [], [], _, _ => rfl
  | [], v :: vs, _, h => by simp at h
  | w :: ws, [], _, h => by simp at h
  | w :: ws, v :: vs, hnd, hlen => by
    simp only [List.map_cons, List.indexOf_cons_self, List.getD_cons_zero]
    have hw : w ∉ ws := (List.nodup_cons.mp hnd).1
    congr 1
    have hstep : (ws.map fun x => (v :: vs).getD ((w :: ws).indexOf x) 0)
        = ws.map fun x => vs.getD (ws.indexOf x) 0 := by
      refine List.map_congr_left fun x hx => ?_
      rw [List.indexOf_cons_ne _ fun he => hw (by rw [he]; exact hx)]
      simp [Nat.succ_eq_add_one, List.getD_cons_succ]
    rw [hstep, lookup_self ws vs (List.nodup_cons.mp hnd).2 (by simpa using hlen)]

/-- The index-assignment fold preserves the accumulator length. -/
theorem foldl_set_length (order : List ℕ) : ∀ (ws : List ℕ) (vs : List ℤ) (acc : List ℕ),
    ((ws.zip vs).foldl (fun a wv => a.set (order.indexOf wv.1) wv.2.toNat) acc).length
      = acc.length
  | [], _, _ => rfl
  | _ :: _, [], _ => rfl
  | w :: ws, v :: vs, acc => by
    simp only [List.zip_cons_cons, List.foldl_cons]
    rw [foldl_set_length order ws vs _, List.length_set]

/-- Entry `p` of the result of the index-assignment fold: the trit of the
wire sitting at position `p` of the target order, or the accumulator entry
when that wire is not among the assigned wires. -/
theorem foldl_set_getD (order : List ℕ) (hord : order.Nodup) :
    ∀ (ws : List ℕ) (vs : List ℤ) (acc : List ℕ) (p : ℕ),
    ws.Nodup → ws.length = vs.length → (∀ w ∈ ws, w ∈ order) →
    acc.length = order.length → p < order.length →
    ((ws.zip vs).foldl (fun a wv => a.set (order.indexOf wv.1) wv.2.toNat) acc).getD p 0
      = if order.getD p 0 ∈ ws then (vs.getD (ws.indexOf (order.getD p 0)) 0).toNat
        else acc.getD p 0
  | [], vs, acc, p, _, _, _, _, _ => by simp
  | w :: ws, [], acc, p, _, hlen, _, _, _ => by simp at hlen
  | w :: ws, v :: vs, acc, p, hnd, hlen, hsub, hacc, hp => by
    simp only [List.zip_cons_cons, List.foldl_cons]
    have hw : w ∉ ws := (List.nodup_cons.mp hnd).1
    have hpl : p < acc.length := by rw [hacc]; exact hp
    have hrec := foldl_set_getD order hord ws vs (acc.set (order.indexOf w) v.toNat) p
      (List.nodup_cons.mp hnd).2 (by simpa using hlen)
      (fun x hx => hsub x (List.mem_cons_of_mem _ hx))
      (by rw [List.length_set]; exact hacc) hp
    rw [hrec]
    by_cases hmem : order.getD p 0 ∈ ws
    · rw [if_pos hmem, if_pos (List.mem_cons_of_mem _ hmem)]
      rw [List.indexOf_cons_ne _ fun he => hw (by rw [he]; exact hmem)]
      simp [Nat.succ_eq_add_one, List.getD_cons_succ]
    · rw [if_neg hmem]
      by_cases heq : order.getD p 0 = w
      · rw [if_pos (by rw [heq]; exact List.mem_cons_self w ws)]
        have hidx : order.indexOf w = p := by
          rw [← heq, List.getD_eq_getElem _ _ hp]
          exact List.indexOf_getElem hord p hp
        rw [hidx]
        rw [List.getD_eq_getElem _ _ (by rw [List.length_set]; exact hpl)]
        rw [List.getElem_set_self (by rw [List.length_set]; exact hpl)]
        rw [heq, List.indexOf_cons_self, List.getD_cons_zero]
      · have hnotin : order.getD p 0 ∉ w :: ws := by
          intro hc
          rcases List.mem_cons.mp hc with h | h
          · exact heq h
          · exact hmem h
        rw [if_neg hnotin]
        have hwo : w ∈ order := hsub w (List.mem_cons_self w ws)
        have hne : order.indexOf w ≠ p := by
          intro hc
          apply heq
          have hlt : List.indexOf w order < order.length := List.indexOf_lt_length.mpr hwo
          have h1 : order.getD p 0 = order.getD (List.indexOf w order) 0 := by rw [hc]
          rw [h1, List.getD_eq_getElem _ _ hlt, List.getElem_indexOf hlt]
        rw [List.getD_eq_getElem _ _ (by rw [List.length_set]; exact hpl)]
        rw [List.getElem_set_ne hne]
        rw [List.getD_eq_getElem _ _ hpl]

/-- The index tuple computed by the wire-order loop equals the index tuple
described by the specification. -/
theorem qbs_indices (order : List ℕ) (hord : order.Nodup) (ws : List ℕ) (vs : List ℤ)
    (hnd : ws.Nodup) (hlen : ws.length = vs.length) (hsub : ∀ w ∈ ws, w ∈ order) :
    (ws.zip vs).foldl (fun a wv => a.set (order.indexOf wv.1) wv.2.toNat)
      (List.replicate order.length 0)
    = specIndices ws vs order := by
  apply List.ext_getElem
  · rw [foldl_set_length, List.length_replicate]
    simp [specIndices]
  · intro p h1 h2
    have hp : p < order.length := by
      rw [foldl_set_length, List.length_replicate] at h1
      exact h1
    rw [← List.getD_eq_getElem _ 0 h1, ← List.getD_eq_getElem _ 0 h2]
    rw [foldl_set_getD order hord ws vs _ p hnd hlen hsub (List.length_replicate _ _) hp]
    have hrep : (List.replicate order.length (0 : ℕ)).getD p 0 = 0 := by
      rw [List.getD_eq_getElem _ _ (by simpa using hp)]
      simp
    rw [hrep]
    have hrhs : (specIndices ws vs order).getD p 0
        = if order[p] ∈ ws then (vs.getD (ws.indexOf order[p]) 0).toNat else 0 := by
      unfold specIndices
      rw [List.getD_eq_getElem _ _ (by simpa [specIndices] using hp)]
      rw [List.getElem_map]
    rw [hrhs, List.getD_eq_getElem _ _ hp]

/-- Claim C7: for every trit sequence over the operator wires (each trit in
\x7b0, 1, 2\x7d, as many trits as wires), `QutritBasisState.state_vector`
returns the one-hot tensor of shape (3,)^m over the target order (the wire
order when given, the operator wires otherwise), whose single 1 sits at the
index tuple placing each trit at its wire's position in the target order,
wires absent from the operator getting index 0. -/
theorem C7_basis_state_onehot (wires : List ℕ) (prep_vals : List ℤ)
    (wire_order : Option (List ℕ))
    (hvals : ∀ v ∈ prep_vals, v = 0 ∨ v = 1 ∨ v = 2)
    (hlen : wires.length = prep_vals.length)
    (hnd : wires.Nodup)
    (hord : ∀ o ∈ wire_order, o.Nodup ∧ ∀ w ∈ wires, w ∈ o) :
    qbs_state_vector wires prep_vals wire_order =
      Except.ok ⟨List.replicate (wire_order.getD wires).length 3,
        oneHot (3 ^ (wire_order.getD wires).length)
          (flattenIdx (List.replicate (wire_order.getD wires).length 3)
            (specIndices wires prep_vals (wire_order.getD wires)))⟩ := by
  have hvb : (prep_vals.all fun i => i = 0 ∨ i = 1 ∨ i = 2) = true := by
    simp only [List.all_eq_true]
    intro v hv
    simpa using hvals v hv
  unfold qbs_state_vector
  rw [if_neg (fun hc => hc hvb), if_neg (fun hc => hc hlen)]
  cases wire_order with
  | none =>
    simp only [Option.getD_none]
    have hspec : specIndices wires prep_vals wires = prep_vals.map Int.toNat := by
      unfold specIndices
      have h1 : (wires.map fun w =>
          if w ∈ wires then (prep_vals.getD (wires.indexOf w) 0).toNat else 0)
          = wires.map fun w => (prep_vals.getD (wires.indexOf w) 0).toNat :=
        List.map_congr_left fun w hw => if_pos hw
      rw [h1]
      have h2 := lookup_self wires prep_vals hnd hlen
      calc wires.map (fun w => (prep_vals.getD (wires.indexOf w) 0).toNat)
          = (wires.map fun w => prep_vals.getD (wires.indexOf w) 0).map Int.toNat := by
            rw [List.map_map]
            rfl
        _ = prep_vals.map Int.toNat := by rw [h2]
    rw [hspec]
    rfl
  | some order =>
    obtain ⟨hordn, hsub⟩ := hord order rfl
    simp only [Option.getD_some]
    have hb : (wires.all fun w => w ∈ order) = true := by
      simp only [List.all_eq_true]
      intro w hw
      simpa using hsub w hw
    rw [← qbs_indices order hordn wires prep_vals hnd hlen hsub]
    simp only [hb, not_true, if_false]
    rfl

/-- Witness for C7: trits `[2, 2]` over two wires with no custom order give
the nine-element one-hot tensor with flat index 8 set to 1. -/
theorem C7_basis_state_witness :
    qbs_state_vector [0, 1] [2, 2] none = Except.ok ⟨[3, 3], oneHot 9 8⟩ := by
  have h := C7_basis_state_onehot [0, 1] [2, 2] none (by decide) rfl (by decide)
    (fun o ho => by cases ho)
  simpa using h

/-- Claim C1 (code evaluation at the failing input): for an operator on one
wire with state `[1, 0, 0]` and target order `[0, 1]`,
`QutritStateVector.state_vector` stacks a single zero block for the extra
wire, so the returned tensor has shape `(3, 2)` — a trailing axis of size 2
with entries (amplitude, 0) — instead of one size-3 axis per target wire. -/
theorem C1_qsv_padding_bug :
    qsv_state_vector [0] [1, 0, 0] (some [0, 1]) =
      Except.ok ⟨[3, 2], [1, 0, 0, 0, 0, 0]⟩ := by decide

/-- Witness for C3 (amended): instantiation at the non-integer exponent 1/2,
which the subspace gates pass through unchanged and the periodic gates
reduce by the float modulo. -/
theorem C3_pow_nonint_witness :
    tcnot_pow (PyNum.pfloat (1 / 2)) = PyNum.pfloat (1 / 2) ∧
    tx_pow (PyNum.pfloat (1 / 2)) = PyNum.pfloat (1 / 2) ∧
    ty_pow (PyNum.pfloat (1 / 2)) = PyNum.pfloat (1 / 2) ∧
    tz_pow (PyNum.pfloat (1 / 2)) = PyNum.pfloat (1 / 2) ∧
    th_pow (PyNum.pfloat (1 / 2)) = PyNum.pfloat (1 / 2) ∧
    tshift_pow (PyNum.pfloat (1 / 2)) = PyNum.pfloat (1 / 2 - 3 * (⌊(1 / 2 : ℚ) / 3⌋ : ℤ)) ∧
    tclock_pow (PyNum.pfloat (1 / 2)) = PyNum.pfloat (1 / 2 - 3 * (⌊(1 / 2 : ℚ) / 3⌋ : ℤ)) ∧
    tadd_pow (PyNum.pfloat (1 / 2)) = PyNum.pfloat (1 / 2 - 3 * (⌊(1 / 2 : ℚ) / 3⌋ : ℤ)) ∧
    tswap_pow (PyNum.pfloat (1 / 2)) = PyNum.pfloat (1 / 2 - 2 * (⌊(1 / 2 : ℚ) / 2⌋ : ℤ)) :=
  C3_pow_nonint_amended (1 / 2)
